import Mathlib

/-! # Verification of the JSON tokenizer (`src/tokenize.rs`)

Shallow embedding of the Rust lexical scanner.  The input is a `List Char`
(Rust's `Vec<char>` collected from the input `String`), the mutable cursor is
passed explicitly as a `Nat` and returned updated, and every fallible scanner
returns `Except RunError (Token × Nat)`.  An out-of-bounds slice index — a Rust
panic, which the source does not guard against in `tokenize_literal` — is
modelled as the distinguished outcome `RunError.indexOutOfBounds`, kept apart
from the ordinary `TokenizeError` results. -/

namespace Tokenize

/-- The token type of `src/tokenize.rs` (`enum Token`).  Rust stores numbers as
`f64`; the embedding stores the exactly-parsed decimal value as a rational
(every numeric value appearing in the claims is exactly representable). -/
inductive Token where
  | LeftBrace
  | RightBrace
  | LeftBracket
  | RightBracket
  | Comma
  | Colon
  | Null
  | False
  | True
  | Number (value : ℚ)
  | String (value : String)
deriving DecidableEq, Repr

/-- Model of Rust std's `ParseFloatError`: its private `FloatErrorKind` is
`Empty` (empty input string) or `Invalid` (anything else rejected). -/
inductive ParseFloatError where
  | empty
  | invalid
deriving DecidableEq, Repr

/-- The error type of `src/tokenize.rs` (`enum TokenizeError`). -/
inductive TokenizeError where
  | UnfinishedLiteralValue
  | ParseNumberError (err : ParseFloatError)
  | UnclosedQuotes
  | UnexpectedEof
  | CharNotRecognized (c : Char)
deriving DecidableEq, Repr

/-- Outcome of running the scanner: an ordinary `TokenizeError`, or a Rust
panic from indexing a slice out of bounds (`chars[i]` with `i ≥ len`). -/
inductive RunError where
  | tokErr (e : TokenizeError)
  | indexOutOfBounds
deriving DecidableEq, Repr

instance {ε α : Type} [DecidableEq ε] [DecidableEq α] :
    DecidableEq (Except ε α) := fun x y =>
  match x, y with
  | .error a, .error b =>
    if h : a = b then .isTrue (by rw [h]) else .isFalse (by simp [h])
  | .ok a, .ok b =>
    if h : a = b then .isTrue (by rw [h]) else .isFalse (by simp [h])
  | .error _, .ok _ => .isFalse (by simp)
  | .ok _, .error _ => .isFalse (by simp)

/-- Rust's `char::is_ascii_whitespace`: space, horizontal tab, newline,
form feed, carriage return. -/
def is_ascii_whitespace (c : Char) : Bool :=
  c = ' ' || c = '\t' || c = '\n' || c = '\x0C' || c = '\r'

/-- Decimal value of a digit string (most significant first). -/
def digits_to_nat (ds : List Char) : Nat :=
  ds.foldl (fun n c => 10 * n + (c.toNat - '0'.toNat)) 0

/-- Unsigned part of Rust's `f64::from_str` grammar, restricted to the
characters `tokenize_float` can accumulate (ASCII digits, `.`, `-`):
`Digit+ ('.' Digit*)? | '.' Digit+`.  Returns the exact decimal value;
any other shape (in particular a non-leading `-`) is rejected. -/
def f64_grammar (s : List Char) : Option ℚ :=
  let int_part := s.takeWhile Char.isDigit
  match s.dropWhile Char.isDigit with
  | [] => if int_part.isEmpty then none else some (digits_to_nat int_part)
  | '.' :: frac =>
    if frac.all Char.isDigit ∧ (int_part ≠ [] ∨ frac ≠ []) then
      some ((digits_to_nat int_part * 10 ^ frac.length + digits_to_nat frac : ℚ) /
        10 ^ frac.length)
    else none
  | _ => none

/-- Model of Rust std's `f64::from_str` (the `unparsed_num.parse()` call in
`tokenize_float`): an optional leading sign followed by `f64_grammar`.
The `inf`/`nan`/exponent alternatives of the real grammar are omitted as
unreachable: `tokenize_float` only accumulates digits, `.` and `-`.
The value is the exact rational, abstracting from `f64` rounding. -/
def f64_from_str (s : List Char) : Except ParseFloatError ℚ :=
  match s with
  | [] => .error .empty
  | _ =>
    let body : List Char :=
      match s with
      | '-' :: t => t
      | '+' :: t => t
      | _ => s
    let sign : ℚ :=
      match s with
      | '-' :: _ => -1
      | _ => 1
    match f64_grammar body with
    | some q => .ok (sign * q)
    | none => .error .invalid

/-- The whitespace-skipping loop at the top of `make_token`: starting from the
character at `index` (whose access panics when out of bounds — the caller
guarantees `index < chars.length`), advance while on ASCII whitespace; fail
with `UnexpectedEof` when the advance reaches the end of input; otherwise
return the index of, and the first non-whitespace character. -/
def skip_whitespace (chars : List Char) (index : Nat) :
    Except RunError (Nat × Char) :=
  match chars[index]? with
  | none => .error .indexOutOfBounds
  | some c =>
    if is_ascii_whitespace c then
      if h : chars.length ≤ index + 1 then .error (.tokErr .UnexpectedEof)
      else skip_whitespace chars (index + 1)
    else .ok (index, c)
termination_by chars.length - index
decreasing_by omega

/-- Rust `tokenize_literal`: compare the expected literal characters one by one
against `chars` starting at `index` (the source indexes `chars[*index]` with no
bounds check, so running past the end of input is an out-of-bounds panic,
modelled as `indexOutOfBounds`).  On the first mismatch fail with
`UnfinishedLiteralValue`; after a full match step the cursor back by one
(`*index -= 1` in the source; `Nat` subtraction here — the call sites always
pass a nonempty literal, so no underflow is reachable). -/
def tokenize_literal (chars : List Char) (index : Nat) (string_value : List Char)
    (token : Token) : Except RunError (Token × Nat) :=
  match string_value with
  | [] => .ok (token, index - 1)
  | expected_char :: rest =>
    match chars[index]? with
    | none => .error .indexOutOfBounds
    | some c =>
      if expected_char ≠ c then .error (.tokErr .UnfinishedLiteralValue)
      else tokenize_literal chars (index + 1) rest token

/-- Rust `tokenize_string`: `current_index` is at the opening quote (or at the
last examined character on a recursive step); `is_escaping` and `string` are
the loop state (initialized `false` and the empty buffer by the caller, as in
the source's local variables; the `String` buffer is modelled as its character
list, `push` appending one character).  Each step first advances the cursor,
fails with `UnclosedQuotes` at the end of input, stops at an unescaped `"`
(which is not pushed), toggles the escape flag on a backslash, resets it on
anything else, and pushes the raw character. -/
def tokenize_string (chars : List Char) (current_index : Nat)
    (is_escaping : Bool) (string : List Char) : Except RunError (Token × Nat) :=
  if h : chars.length ≤ current_index + 1 then .error (.tokErr .UnclosedQuotes)
  else
    let ch := chars[current_index + 1]
    if ch = '"' ∧ is_escaping = false then
      .ok (.String (String.mk string), current_index + 1)
    else
      tokenize_string chars (current_index + 1)
        (if ch = '\\' then !is_escaping else false) (string ++ [ch])
termination_by chars.length - current_index
decreasing_by omega

/-- The accumulation loop of Rust `tokenize_float`: starting at `curr_index`,
greedily consume ASCII digits, a `.` when `has_decimal` is still false, and a
`-` when `has_decimal` is still false (the source sets `has_negative` but never
reads it, so nothing limits the number of minus signs); stop at the first other
character or at the end of input, returning the accumulated text (the Rust
`String` buffer modelled as its character list) and the final cursor position
(left on the terminating character). -/
def float_scan (chars : List Char) (curr_index : Nat)
    (has_decimal has_negative : Bool) (unparsed_num : List Char) :
    List Char × Nat :=
  if h : curr_index < chars.length then
    let ch := chars[curr_index]
    if ch.isDigit then
      float_scan chars (curr_index + 1) has_decimal has_negative
        (unparsed_num ++ [ch])
    else if ch = '.' ∧ has_decimal = false then
      float_scan chars (curr_index + 1) true has_negative (unparsed_num ++ ['.'])
    else if ch = '-' ∧ has_decimal = false then
      float_scan chars (curr_index + 1) has_decimal true (unparsed_num ++ ['-'])
    else (unparsed_num, curr_index)
  else (unparsed_num, curr_index)
termination_by chars.length - curr_index
decreasing_by all_goals omega

/-- Rust `tokenize_float`: run the accumulation loop from `curr_index` with
fresh flags and buffer, then parse the accumulated text as an `f64`, returning
`Number` on success and `ParseNumberError` with the parse failure otherwise. -/
def tokenize_float (chars : List Char) (curr_index : Nat) :
    Except RunError (Token × Nat) :=
  match float_scan chars curr_index false false [] with
  | (unparsed_num, final_index) =>
    match f64_from_str unparsed_num with
    | .ok f => .ok (.Number f, final_index)
    | .error err => .error (.tokErr (.ParseNumberError err))

/-- Rust `make_token`: skip whitespace (failing with `UnexpectedEof` when that
exhausts the input), then dispatch on the first non-whitespace character, in
the source's arm order: single-character punctuation (cursor left on the
character), the three literal keywords, numbers, strings, and
`CharNotRecognized` for anything else. -/
def make_token (chars : List Char) (index : Nat) :
    Except RunError (Token × Nat) :=
  match skip_whitespace chars index with
  | .error e => .error e
  | .ok (i, c) =>
    if c = '[' then .ok (.LeftBracket, i)
    else if c = ']' then .ok (.RightBracket, i)
    else if c = '{' then .ok (.LeftBrace, i)
    else if c = '}' then .ok (.RightBrace, i)
    else if c = ',' then .ok (.Comma, i)
    else if c = ':' then .ok (.Colon, i)
    else if c = 'n' then tokenize_literal chars i ("null".data) .Null
    else if c = 't' then tokenize_literal chars i ("true".data) .True
    else if c = 'f' then tokenize_literal chars i ("false".data) .False
    else if c.isDigit then tokenize_float chars i
    else if c = '"' then tokenize_string chars i false []
    else .error (.tokErr (.CharNotRecognized c))

/-- The cursor returned by `skip_whitespace` never moves backwards. -/
theorem skip_whitespace_le (chars : List Char) :
    ∀ (index i : Nat) (c : Char),
    skip_whitespace chars index = .ok (i, c) → index ≤ i := by
  have H : ∀ (n index i : Nat) (c : Char), chars.length - index ≤ n →
      skip_whitespace chars index = .ok (i, c) → index ≤ i := by
    intro n
    induction n with
    | zero =>
      intro index i c hfuel h
      rw [skip_whitespace] at h
      split at h
      · exact absurd h (by simp)
      · rename_i c' heq
        have hnone : chars[index]? = none := List.getElem?_eq_none (by omega)
        rw [hnone] at heq
        cases heq
    | succ n ih =>
      intro index i c hfuel h
      rw [skip_whitespace] at h
      split at h
      · exact absurd h (by simp)
      · split at h
        · split at h
          · exact absurd h (by simp)
          · have := ih (index + 1) i c (by omega) h
            omega
        · simp only [Except.ok.injEq, Prod.mk.injEq] at h
          omega
  intro index i c h
  exact H (chars.length - index) index i c (le_refl _) h

/-- The cursor returned by a successful `tokenize_literal` on a nonempty
literal never moves backwards. -/
theorem tokenize_literal_cons_le (rest : List Char) :
    ∀ (chars : List Char) (index : Nat) (e : Char) (tk t : Token) (j : Nat),
    tokenize_literal chars index (e :: rest) tk = .ok (t, j) → index ≤ j := by
  induction rest with
  | nil =>
    intro chars index e tk t j h
    rw [tokenize_literal] at h
    split at h
    · exact absurd h (by simp)
    · split at h
      · exact absurd h (by simp)
      · rw [tokenize_literal] at h
        simp only [Except.ok.injEq, Prod.mk.injEq] at h
        omega
  | cons e' rest' ih =>
    intro chars index e tk t j h
    rw [tokenize_literal] at h
    split at h
    · exact absurd h (by simp)
    · split at h
      · exact absurd h (by simp)
      · exact Nat.le_of_succ_le (ih chars (index + 1) e' tk t j h)

/-- The final cursor of `float_scan` never moves backwards. -/
theorem float_scan_le (chars : List Char) :
    ∀ (curr_index : Nat) (has_decimal has_negative : Bool)
    (unparsed_num : List Char),
    curr_index ≤ (float_scan chars curr_index has_decimal has_negative
      unparsed_num).2 := by
  have H : ∀ (n curr_index : Nat) (hd hn : Bool) (acc : List Char),
      chars.length - curr_index ≤ n →
      curr_index ≤ (float_scan chars curr_index hd hn acc).2 := by
    intro n
    induction n with
    | zero =>
      intro i hd hn acc hfuel
      rw [float_scan]
      split
      · omega
      · simp
    | succ n ih =>
      intro i hd hn acc hfuel
      rw [float_scan]
      split
      · rename_i hlt
        simp only []
        split
        · have := ih (i + 1) hd hn (acc ++ [chars[i]]) (by omega)
          omega
        · split
          · have := ih (i + 1) true hn (acc ++ ['.']) (by omega)
            omega
          · split
            · have := ih (i + 1) hd true (acc ++ ['-']) (by omega)
              omega
            · simp
      · simp
  intro i hd hn acc
  exact H (chars.length - i) i hd hn acc (le_refl _)

/-- The cursor returned by a successful `tokenize_string` strictly advances. -/
theorem tokenize_string_le (chars : List Char) :
    ∀ (current_index : Nat) (is_escaping : Bool) (string : List Char)
    (t : Token) (j : Nat),
    tokenize_string chars current_index is_escaping string = .ok (t, j) →
    current_index + 1 ≤ j := by
  have H : ∀ (n ci : Nat) (esc : Bool) (s : List Char) (t : Token) (j : Nat),
      chars.length - ci ≤ n →
      tokenize_string chars ci esc s = .ok (t, j) → ci + 1 ≤ j := by
    intro n
    induction n with
    | zero =>
      intro ci esc s t j hfuel h
      rw [tokenize_string] at h
      split at h
      · exact absurd h (by simp)
      · omega
    | succ n ih =>
      intro ci esc s t j hfuel h
      rw [tokenize_string] at h
      split at h
      · exact absurd h (by simp)
      · simp only [] at h
        split at h
        · simp only [Except.ok.injEq, Prod.mk.injEq] at h
          omega
        · have := ih (ci + 1) _ _ t j (by omega) h
          omega
  intro ci esc s t j h
  exact H (chars.length - ci) ci esc s t j (le_refl _) h

set_option maxHeartbeats 1000000 in
/-- A successful `make_token` never moves the cursor backwards (the fact that
makes the dispatch loop terminate). -/
theorem make_token_le (chars : List Char) (index : Nat) (t : Token) (j : Nat)
    (h : make_token chars index = .ok (t, j)) : index ≤ j := by
  rw [make_token] at h
  split at h
  · exact Except.noConfusion h
  · rename_i i c heq
    have hii : index ≤ i := skip_whitespace_le chars index i c heq
    have hfl : ∀ (t' : Token) (j' : Nat),
        tokenize_float chars i = .ok (t', j') → i ≤ j' := by
      intro t' j' hf
      rw [tokenize_float] at hf
      split at hf
      rename_i unum fi hscan
      split at hf
      · cases hf
        have := float_scan_le chars i false false []
        rw [hscan] at this
        exact this
      · exact Except.noConfusion hf
    repeat' split at h
    all_goals
      first
      | exact Except.noConfusion h
      | exact hii.trans (tokenize_literal_cons_le _ chars i _ _ t j h)
      | (have hfj := hfl t j h; omega)
      | (have hsj := tokenize_string_le chars i false [] t j h; omega)
      | (cases h; omega)

/-- The dispatch loop of Rust `tokenize`: while the cursor is in bounds,
produce one token via `make_token`, append it, advance the cursor by one past
where `make_token` left it, and repeat; return the accumulated tokens when the
cursor reaches the end of input.  An error from `make_token` aborts the loop
and is returned unchanged. -/
def tokenize_loop (chars : List Char) (index : Nat) (tokens : List Token) :
    Except RunError (List Token) :=
  if h : index < chars.length then
    match hm : make_token chars index with
    | .error e => .error e
    | .ok (token, j) => tokenize_loop chars (j + 1) (tokens ++ [token])
  else .ok tokens
termination_by chars.length - index
decreasing_by
  have := make_token_le chars index token j hm
  omega

/-- Rust `tokenize`: collect the input's characters and run the dispatch loop
from cursor 0 with an empty token list. -/
def tokenize (input : String) : Except RunError (List Token) :=
  tokenize_loop input.data 0 []

/-- Unfolding of `skip_whitespace` at a non-whitespace character. -/
theorem skip_whitespace_stop (chars : List Char) (index : Nat) (c : Char)
    (h1 : chars[index]? = some c) (h2 : is_ascii_whitespace c = false) :
    skip_whitespace chars index = .ok (index, c) := by
  rw [skip_whitespace, h1]
  simp [h2]

/-- Unfolding of `skip_whitespace` at a whitespace character that exhausts the
input. -/
theorem skip_whitespace_eof (chars : List Char) (index : Nat) (c : Char)
    (h1 : chars[index]? = some c) (h2 : is_ascii_whitespace c = true)
    (h3 : chars.length ≤ index + 1) :
    skip_whitespace chars index = .error (.tokErr .UnexpectedEof) := by
  rw [skip_whitespace, h1]
  simp [h2, h3]

/-- Unfolding of `skip_whitespace` at a whitespace character with more input
remaining. -/
theorem skip_whitespace_step (chars : List Char) (index : Nat) (c : Char)
    (h1 : chars[index]? = some c) (h2 : is_ascii_whitespace c = true)
    (h3 : index + 1 < chars.length) :
    skip_whitespace chars index = skip_whitespace chars (index + 1) := by
  rw [skip_whitespace, h1]
  simp [h2]
  omega

/-- Unfolding of `tokenize_string` when the advance reaches the end of
input. -/
theorem tokenize_string_eof (chars : List Char) (ci : Nat) (esc : Bool)
    (s : List Char) (h : chars.length ≤ ci + 1) :
    tokenize_string chars ci esc s = .error (.tokErr .UnclosedQuotes) := by
  rw [tokenize_string]
  simp [h]

/-- Unfolding of `tokenize_string` at an unescaped closing quote. -/
theorem tokenize_string_close (chars : List Char) (ci : Nat) (s : List Char)
    (h1 : chars[ci + 1]? = some '"') :
    tokenize_string chars ci false s = .ok (.String (String.mk s), ci + 1) := by
  obtain ⟨hb, hv⟩ := List.getElem?_eq_some.mp h1
  rw [tokenize_string, dif_neg (by omega)]
  simp [hv]

/-- Unfolding of `tokenize_string` at a character that does not close the
string. -/
theorem tokenize_string_push (chars : List Char) (ci : Nat) (esc : Bool)
    (s : List Char) (ch : Char) (h1 : chars[ci + 1]? = some ch)
    (h2 : ¬(ch = '"' ∧ esc = false)) :
    tokenize_string chars ci esc s =
      tokenize_string chars (ci + 1) (if ch = '\\' then !esc else false)
        (s ++ [ch]) := by
  obtain ⟨hb, hv⟩ := List.getElem?_eq_some.mp h1
  rw [tokenize_string, dif_neg (by omega)]
  simp only [hv]
  rw [if_neg h2]

/-- Unfolding of `tokenize_string` at a non-backslash character that does not
close the string: the escape flag is reset to `false`. -/
theorem tokenize_string_push_stay (chars : List Char) (ci : Nat) (esc : Bool)
    (s : List Char) (ch : Char) (h1 : chars[ci + 1]? = some ch)
    (h2 : ¬(ch = '"' ∧ esc = false)) (h3 : ¬ch = '\\') :
    tokenize_string chars ci esc s =
      tokenize_string chars (ci + 1) false (s ++ [ch]) := by
  rw [tokenize_string_push chars ci esc s ch h1 h2, if_neg h3]

/-- Unfolding of `tokenize_string` at a backslash: the escape flag toggles. -/
theorem tokenize_string_push_bslash (chars : List Char) (ci : Nat) (esc : Bool)
    (s : List Char) (h1 : chars[ci + 1]? = some '\\') :
    tokenize_string chars ci esc s =
      tokenize_string chars (ci + 1) (!esc) (s ++ ['\\']) := by
  rw [tokenize_string_push chars ci esc s '\\' h1 (by simp), if_pos rfl]

/-- Unfolding of `float_scan` at the end of input. -/
theorem float_scan_oob (chars : List Char) (curr : Nat) (hd hn : Bool)
    (acc : List Char) (h : chars.length ≤ curr) :
    float_scan chars curr hd hn acc = (acc, curr) := by
  rw [float_scan, dif_neg (by omega)]

/-- Unfolding of `float_scan` at an ASCII digit. -/
theorem float_scan_digit (chars : List Char) (curr : Nat) (hd hn : Bool)
    (acc : List Char) (ch : Char) (h1 : chars[curr]? = some ch)
    (h2 : ch.isDigit = true) :
    float_scan chars curr hd hn acc =
      float_scan chars (curr + 1) hd hn (acc ++ [ch]) := by
  obtain ⟨hb, hv⟩ := List.getElem?_eq_some.mp h1
  rw [float_scan, dif_pos hb]
  simp only [hv]
  rw [if_pos h2]

/-- Unfolding of `float_scan` at a decimal point when none was consumed yet. -/
theorem float_scan_dot (chars : List Char) (curr : Nat) (hn : Bool)
    (acc : List Char) (h1 : chars[curr]? = some '.') :
    float_scan chars curr false hn acc =
      float_scan chars (curr + 1) true hn (acc ++ ['.']) := by
  obtain ⟨hb, hv⟩ := List.getElem?_eq_some.mp h1
  rw [float_scan, dif_pos hb]
  simp only [hv]
  rw [if_neg (by simp), if_pos (by simp)]

/-- Unfolding of `float_scan` at a minus sign when no decimal point was
consumed yet. -/
theorem float_scan_minus (chars : List Char) (curr : Nat) (hn : Bool)
    (acc : List Char) (h1 : chars[curr]? = some '-') :
    float_scan chars curr false hn acc =
      float_scan chars (curr + 1) false true (acc ++ ['-']) := by
  obtain ⟨hb, hv⟩ := List.getElem?_eq_some.mp h1
  rw [float_scan, dif_pos hb]
  simp only [hv]
  rw [if_neg (by simp), if_neg (by simp), if_pos (by simp)]

/-- Unfolding of `float_scan` at a terminating character. -/
theorem float_scan_stop (chars : List Char) (curr : Nat) (hd hn : Bool)
    (acc : List Char) (ch : Char) (h1 : chars[curr]? = some ch)
    (h2 : ch.isDigit = false) (h3 : ¬(ch = '.' ∧ hd = false))
    (h4 : ¬(ch = '-' ∧ hd = false)) :
    float_scan chars curr hd hn acc = (acc, curr) := by
  obtain ⟨hb, hv⟩ := List.getElem?_eq_some.mp h1
  rw [float_scan, dif_pos hb]
  simp only [hv]
  rw [if_neg (by simp [h2]), if_neg h3, if_neg h4]

/-- Unfolding of `tokenize_loop` once the cursor reaches the end of input. -/
theorem tokenize_loop_done (chars : List Char) (index : Nat)
    (tokens : List Token) (h : chars.length ≤ index) :
    tokenize_loop chars index tokens = .ok tokens := by
  rw [tokenize_loop, dif_neg (by omega)]

/-- Unfolding of `tokenize_loop` when `make_token` produces a token. -/
theorem tokenize_loop_ok (chars : List Char) (index : Nat)
    (tokens : List Token) (t : Token) (j : Nat) (h1 : index < chars.length)
    (h2 : make_token chars index = .ok (t, j)) :
    tokenize_loop chars index tokens =
      tokenize_loop chars (j + 1) (tokens ++ [t]) := by
  rw [tokenize_loop, dif_pos h1]
  split
  · rename_i e he
    rw [h2] at he
    cases he
  · rename_i tk j' he
    rw [h2] at he
    cases he
    rfl

/-- Unfolding of `tokenize_loop` when `make_token` fails: the error aborts the
loop and is returned unchanged. -/
theorem tokenize_loop_err (chars : List Char) (index : Nat)
    (tokens : List Token) (e : RunError) (h1 : index < chars.length)
    (h2 : make_token chars index = .error e) :
    tokenize_loop chars index tokens = .error e := by
  rw [tokenize_loop, dif_pos h1]
  split
  · rename_i e' he
    rw [h2] at he
    cases he
    rfl
  · rename_i tk j' he
    rw [h2] at he
    cases he

/-- The six JSON punctuation characters of the dispatch table. -/
def is_punct (c : Char) : Prop :=
  c = '[' ∨ c = ']' ∨ c = '{' ∨ c = '}' ∨ c = ',' ∨ c = ':'

instance (c : Char) : Decidable (is_punct c) := by
  unfold is_punct
  exact inferInstance

/-- The single-character token the dispatch table assigns to a punctuation
character (meaningful only on the six characters of `is_punct`). -/
def punct_token (c : Char) : Token :=
  if c = '[' then .LeftBracket
  else if c = ']' then .RightBracket
  else if c = '{' then .LeftBrace
  else if c = '}' then .RightBrace
  else if c = ',' then .Comma
  else .Colon

/-- An error from the whitespace skip is returned by `make_token` unchanged. -/
theorem make_token_skip_err (chars : List Char) (index : Nat) (e : RunError)
    (h : skip_whitespace chars index = .error e) :
    make_token chars index = .error e := by
  rw [make_token, h]

/-- Dispatch on a punctuation character: the corresponding single-character
token, with the cursor left on that character. -/
theorem make_token_punct (chars : List Char) (index i : Nat) (c : Char)
    (h1 : skip_whitespace chars index = .ok (i, c)) (h2 : is_punct c) :
    make_token chars index = .ok (punct_token c, i) := by
  rw [make_token, h1]
  rcases h2 with rfl | rfl | rfl | rfl | rfl | rfl <;> simp [punct_token]

/-- Dispatch on `n`: the literal scanner is entered with expected literal
`"null"`. -/
theorem make_token_n (chars : List Char) (index i : Nat)
    (h1 : skip_whitespace chars index = .ok (i, 'n')) :
    make_token chars index = tokenize_literal chars i ("null".data) .Null := by
  rw [make_token, h1]
  simp

/-- Dispatch on `t`: the literal scanner is entered with expected literal
`"true"`. -/
theorem make_token_t (chars : List Char) (index i : Nat)
    (h1 : skip_whitespace chars index = .ok (i, 't')) :
    make_token chars index = tokenize_literal chars i ("true".data) .True := by
  rw [make_token, h1]
  simp

/-- Dispatch on `f`: the literal scanner is entered with expected literal
`"false"`. -/
theorem make_token_f (chars : List Char) (index i : Nat)
    (h1 : skip_whitespace chars index = .ok (i, 'f')) :
    make_token chars index = tokenize_literal chars i ("false".data) .False := by
  rw [make_token, h1]
  simp

/-- Dispatch on an ASCII digit: the numeric scanner is entered. -/
theorem make_token_digit (chars : List Char) (index i : Nat) (c : Char)
    (h1 : skip_whitespace chars index = .ok (i, c)) (h2 : c.isDigit = true) :
    make_token chars index = tokenize_float chars i := by
  rw [make_token, h1]
  have b1 : c ≠ '[' := by rintro rfl; exact absurd h2 (by decide)
  have b2 : c ≠ ']' := by rintro rfl; exact absurd h2 (by decide)
  have b3 : c ≠ '{' := by rintro rfl; exact absurd h2 (by decide)
  have b4 : c ≠ '}' := by rintro rfl; exact absurd h2 (by decide)
  have b5 : c ≠ ',' := by rintro rfl; exact absurd h2 (by decide)
  have b6 : c ≠ ':' := by rintro rfl; exact absurd h2 (by decide)
  have b7 : c ≠ 'n' := by rintro rfl; exact absurd h2 (by decide)
  have b8 : c ≠ 't' := by rintro rfl; exact absurd h2 (by decide)
  have b9 : c ≠ 'f' := by rintro rfl; exact absurd h2 (by decide)
  simp [b1, b2, b3, b4, b5, b6, b7, b8, b9, h2]

/-- Dispatch on a double quote: the string scanner is entered with the escape
flag off and an empty buffer. -/
theorem make_token_quote (chars : List Char) (index i : Nat)
    (h1 : skip_whitespace chars index = .ok (i, '"')) :
    make_token chars index = tokenize_string chars i false [] := by
  rw [make_token, h1]
  simp

/-- Spec-side predicate (§4.4 wording): whether an unescaped closing quote is
found in the remaining input, starting with the given escape-flag state.  Used
only to state when the string scanner's end-of-input failure occurs. -/
def closes_string : List Char → Bool → Bool
  | [], _ => false
  | c :: rest, esc =>
    if c = '"' ∧ esc = false then true
    else closes_string rest (if c = '\\' then !esc else false)

/-- Evaluation: scanning `1,` — the numeric scanner stops at the comma without
consuming it, and the dispatch loop's advance then skips the comma, which
yields no token. -/
theorem eval_one_comma : tokenize "1," = .ok [Token.Number 1] := by
  have hd : ("1," : String).data = ['1', ','] := rfl
  have h0 : make_token ['1', ','] 0 = .ok (.Number 1, 1) := by
    rw [make_token_digit _ 0 0 '1' (skip_whitespace_stop _ 0 '1' rfl (by decide))
      (by decide)]
    rw [tokenize_float, float_scan_digit _ 0 false false [] '1' rfl (by decide),
      float_scan_stop _ 1 false false _ ',' rfl (by decide) (by decide)
        (by decide)]
    simp +decide [f64_from_str, f64_grammar, digits_to_nat]
  rw [tokenize, hd, tokenize_loop_ok _ 0 _ _ _ (by decide) h0,
    tokenize_loop_done _ _ _ (by decide)]
  rfl

/-- Evaluation: the numeric accumulation loop on `1,` consumes exactly the
digit and stops with the cursor on the comma. -/
theorem eval_scan_one_comma :
    float_scan (("1," : String).data) 0 false false [] = (['1'], 1) := by
  rw [show ("1," : String).data = ['1', ','] from rfl,
    float_scan_digit _ 0 false false [] '1' rfl (by decide),
    float_scan_stop _ 1 false false _ ',' rfl (by decide) (by decide)
      (by decide)]
  rfl

/-- Evaluation: scanning `1 ` — the single trailing space terminates the
number and is then skipped by the dispatch loop's advance, so tokenizing
succeeds. -/
theorem eval_one_space : tokenize "1 " = .ok [Token.Number 1] := by
  have hd : ("1 " : String).data = ['1', ' '] := rfl
  have h0 : make_token ['1', ' '] 0 = .ok (.Number 1, 1) := by
    rw [make_token_digit _ 0 0 '1' (skip_whitespace_stop _ 0 '1' rfl (by decide))
      (by decide)]
    rw [tokenize_float, float_scan_digit _ 0 false false [] '1' rfl (by decide),
      float_scan_stop _ 1 false false _ ' ' rfl (by decide) (by decide)
        (by decide)]
    simp +decide [f64_from_str, f64_grammar, digits_to_nat]
  rw [tokenize, hd, tokenize_loop_ok _ 0 _ _ _ (by decide) h0,
    tokenize_loop_done _ _ _ (by decide)]
  rfl

/-- Evaluation: the numeric accumulation loop on `1--` consumes the digit and
both minus signs (the `has_negative` flag is set but never consulted), ending
with cursor 3 at the end of input. -/
theorem eval_scan_one_minus_minus :
    float_scan (("1--" : String).data) 0 false false [] = (['1', '-', '-'], 3) := by
  rw [show ("1--" : String).data = ['1', '-', '-'] from rfl,
    float_scan_digit _ 0 false false [] '1' rfl (by decide),
    float_scan_minus _ 1 false _ rfl,
    float_scan_minus _ 2 true _ rfl,
    float_scan_oob _ 3 false true _ (by decide)]
  rfl

/-- Evaluation: tokenizing `1--` accumulates `1--`, whose float parse fails,
so the scan aborts with `ParseNumberError` of kind `Invalid`. -/
theorem eval_one_minus_minus :
    tokenize "1--" = .error (.tokErr (.ParseNumberError .invalid)) := by
  have hd : ("1--" : String).data = ['1', '-', '-'] := rfl
  have h0 : make_token ['1', '-', '-'] 0 =
      .error (.tokErr (.ParseNumberError .invalid)) := by
    rw [make_token_digit _ 0 0 '1' (skip_whitespace_stop _ 0 '1' rfl (by decide))
      (by decide)]
    rw [tokenize_float, float_scan_digit _ 0 false false [] '1' rfl (by decide),
      float_scan_minus _ 1 false _ rfl,
      float_scan_minus _ 2 true _ rfl,
      float_scan_oob _ 3 false true _ (by decide)]
    simp +decide [f64_from_str, f64_grammar, digits_to_nat]
  rw [tokenize, hd, tokenize_loop_err _ 0 _ _ (by decide) h0]

/-- Evaluation: `null` tokenizes to exactly one `Null` token. -/
theorem eval_null : tokenize "null" = .ok [Token.Null] := by
  have hd : ("null" : String).data = ['n', 'u', 'l', 'l'] := rfl
  have h0 : make_token ['n', 'u', 'l', 'l'] 0 = .ok (.Null, 3) := by
    rw [make_token_n _ 0 0 (skip_whitespace_stop _ 0 'n' rfl (by decide))]
    decide
  rw [tokenize, hd, tokenize_loop_ok _ 0 _ _ _ (by decide) h0,
    tokenize_loop_done _ _ _ (by decide)]
  rfl

/-- Evaluation: `true` tokenizes to exactly one `True` token. -/
theorem eval_true : tokenize "true" = .ok [Token.True] := by
  have hd : ("true" : String).data = ['t', 'r', 'u', 'e'] := rfl
  have h0 : make_token ['t', 'r', 'u', 'e'] 0 = .ok (.True, 3) := by
    rw [make_token_t _ 0 0 (skip_whitespace_stop _ 0 't' rfl (by decide))]
    decide
  rw [tokenize, hd, tokenize_loop_ok _ 0 _ _ _ (by decide) h0,
    tokenize_loop_done _ _ _ (by decide)]
  rfl

/-- Evaluation: `false` tokenizes to exactly one `False` token. -/
theorem eval_false : tokenize "false" = .ok [Token.False] := by
  have hd : ("false" : String).data = ['f', 'a', 'l', 's', 'e'] := rfl
  have h0 : make_token ['f', 'a', 'l', 's', 'e'] 0 = .ok (.False, 4) := by
    rw [make_token_f _ 0 0 (skip_whitespace_stop _ 0 'f' rfl (by decide))]
    decide
  rw [tokenize, hd, tokenize_loop_ok _ 0 _ _ _ (by decide) h0,
    tokenize_loop_done _ _ _ (by decide)]
  rfl

/-- Evaluation: on `tru` the literal scanner matches `t`, `r`, `u` and then
indexes past the end of input — the unguarded `chars[*index]` access of the
source, an out-of-bounds panic. -/
theorem eval_tru : tokenize "tru" = .error .indexOutOfBounds := by
  have hd : ("tru" : String).data = ['t', 'r', 'u'] := rfl
  have h0 : make_token ['t', 'r', 'u'] 0 = .error .indexOutOfBounds := by
    rw [make_token_t _ 0 0 (skip_whitespace_stop _ 0 't' rfl (by decide))]
    decide
  rw [tokenize, hd, tokenize_loop_err _ 0 _ _ (by decide) h0]

/-- Evaluation: on `n` the literal scanner matches `n` and then indexes past
the end of input — an out-of-bounds panic. -/
theorem eval_n : tokenize "n" = .error .indexOutOfBounds := by
  have hd : ("n" : String).data = ['n'] := rfl
  have h0 : make_token ['n'] 0 = .error .indexOutOfBounds := by
    rw [make_token_n _ 0 0 (skip_whitespace_stop _ 0 'n' rfl (by decide))]
    decide
  rw [tokenize, hd, tokenize_loop_err _ 0 _ _ (by decide) h0]

/-- Evaluation: `"ken"` (quoted) tokenizes to one String token with content
`ken`, the quotes stripped. -/
theorem eval_ken : tokenize "\"ken\"" = .ok [Token.String "ken"] := by
  have hd : ("\"ken\"" : String).data = ['"', 'k', 'e', 'n', '"'] := rfl
  have h0 : make_token ['"', 'k', 'e', 'n', '"'] 0 = .ok (.String "ken", 4) := by
    rw [make_token_quote _ 0 0 (skip_whitespace_stop _ 0 '"' rfl (by decide))]
    rw [tokenize_string_push_stay _ 0 false [] 'k' rfl (by decide) (by decide),
      tokenize_string_push_stay _ 1 false _ 'e' rfl (by decide) (by decide),
      tokenize_string_push_stay _ 2 false _ 'n' rfl (by decide) (by decide),
      tokenize_string_close _ 3 _ rfl]
    rfl
  rw [tokenize, hd, tokenize_loop_ok _ 0 _ _ _ (by decide) h0,
    tokenize_loop_done _ _ _ (by decide)]
  rfl

/-- Evaluation: the raw text `"the \" is OK"` tokenizes to one String token
whose content keeps the backslash-quote sequence verbatim. -/
theorem eval_escaped_quote :
    tokenize "\"the \\\" is OK\"" = .ok [Token.String "the \\\" is OK"] := by
  have hd : ("\"the \\\" is OK\"" : String).data =
      ['"', 't', 'h', 'e', ' ', '\\', '"', ' ', 'i', 's', ' ', 'O', 'K', '"'] :=
    rfl
  have h0 : make_token
      ['"', 't', 'h', 'e', ' ', '\\', '"', ' ', 'i', 's', ' ', 'O', 'K', '"'] 0 =
      .ok (.String "the \\\" is OK", 13) := by
    rw [make_token_quote _ 0 0 (skip_whitespace_stop _ 0 '"' rfl (by decide))]
    rw [tokenize_string_push_stay _ 0 false [] 't' rfl (by decide) (by decide),
      tokenize_string_push_stay _ 1 false _ 'h' rfl (by decide) (by decide),
      tokenize_string_push_stay _ 2 false _ 'e' rfl (by decide) (by decide),
      tokenize_string_push_stay _ 3 false _ ' ' rfl (by decide) (by decide),
      tokenize_string_push_bslash _ 4 false _ rfl,
      tokenize_string_push_stay _ 5 (!false) _ '"' rfl (by decide) (by decide),
      tokenize_string_push_stay _ 6 false _ ' ' rfl (by decide) (by decide),
      tokenize_string_push_stay _ 7 false _ 'i' rfl (by decide) (by decide),
      tokenize_string_push_stay _ 8 false _ 's' rfl (by decide) (by decide),
      tokenize_string_push_stay _ 9 false _ ' ' rfl (by decide) (by decide),
      tokenize_string_push_stay _ 10 false _ 'O' rfl (by decide) (by decide),
      tokenize_string_push_stay _ 11 false _ 'K' rfl (by decide) (by decide),
      tokenize_string_close _ 12 _ rfl]
    rfl
  rw [tokenize, hd, tokenize_loop_ok _ 0 _ _ _ (by decide) h0,
    tokenize_loop_done _ _ _ (by decide)]
  rfl

/-- Evaluation: the unterminated string `"ken` fails with `UnclosedQuotes`. -/
theorem eval_ken_unclosed :
    tokenize "\"ken" = .error (.tokErr .UnclosedQuotes) := by
  have hd : ("\"ken" : String).data = ['"', 'k', 'e', 'n'] := rfl
  have h0 : make_token ['"', 'k', 'e', 'n'] 0 =
      .error (.tokErr .UnclosedQuotes) := by
    rw [make_token_quote _ 0 0 (skip_whitespace_stop _ 0 '"' rfl (by decide))]
    rw [tokenize_string_push_stay _ 0 false [] 'k' rfl (by decide) (by decide),
      tokenize_string_push_stay _ 1 false _ 'e' rfl (by decide) (by decide),
      tokenize_string_push_stay _ 2 false _ 'n' rfl (by decide) (by decide),
      tokenize_string_eof _ 3 false _ (by decide)]
  rw [tokenize, hd, tokenize_loop_err _ 0 _ _ (by decide) h0]

/-- When every character from `index` on is ASCII whitespace and the cursor is
in bounds, the whitespace skip consumes the rest of the input and fails with
`UnexpectedEof`. -/
theorem skip_whitespace_all_ws (chars : List Char) :
    ∀ (index : Nat), index < chars.length →
    (∀ (k : Nat) (hk : k < chars.length), index ≤ k →
      is_ascii_whitespace chars[k] = true) →
    skip_whitespace chars index = .error (.tokErr .UnexpectedEof) := by
  have H : ∀ (n index : Nat), chars.length - index ≤ n →
      index < chars.length →
      (∀ (k : Nat) (hk : k < chars.length), index ≤ k →
        is_ascii_whitespace chars[k] = true) →
      skip_whitespace chars index = .error (.tokErr .UnexpectedEof) := by
    intro n
    induction n with
    | zero =>
      intro index hfuel hlt
      omega
    | succ n ih =>
      intro index hfuel hlt hws
      rw [skip_whitespace, List.getElem?_eq_getElem hlt]
      simp only [hws index hlt (le_refl index), if_true]
      by_cases hl : chars.length ≤ index + 1
      · rw [dif_pos hl]
      · rw [dif_neg hl]
        exact ih (index + 1) (by omega) (by omega)
          (fun k hk hge => hws k hk (by omega))
  intro index hlt hws
  exact H (chars.length - index) index (le_refl _) hlt hws

/-- Unfolding of `tokenize_literal` on an exhausted literal: the cursor steps
back by one. -/
theorem tokenize_literal_nil (chars : List Char) (i : Nat) (tk : Token) :
    tokenize_literal chars i [] tk = .ok (tk, i - 1) := by
  rw [tokenize_literal]

/-- Unfolding of `tokenize_literal` at an out-of-bounds cursor: the unguarded
`chars[*index]` access panics. -/
theorem tokenize_literal_oob (chars : List Char) (i : Nat) (e : Char)
    (rest : List Char) (tk : Token) (h1 : chars[i]? = none) :
    tokenize_literal chars i (e :: rest) tk = .error .indexOutOfBounds := by
  rw [tokenize_literal, h1]

/-- Unfolding of `tokenize_literal` at a mismatching character. -/
theorem tokenize_literal_err_step (chars : List Char) (i : Nat) (e : Char)
    (rest : List Char) (tk : Token) (c : Char) (h1 : chars[i]? = some c)
    (h2 : e ≠ c) :
    tokenize_literal chars i (e :: rest) tk =
      .error (.tokErr .UnfinishedLiteralValue) := by
  rw [tokenize_literal, h1]
  simp [h2]

/-- Unfolding of `tokenize_literal` at a matching character. -/
theorem tokenize_literal_ok_step (chars : List Char) (i : Nat) (e : Char)
    (rest : List Char) (tk : Token) (h1 : chars[i]? = some e) :
    tokenize_literal chars i (e :: rest) tk =
      tokenize_literal chars (i + 1) rest tk := by
  rw [tokenize_literal, h1]
  simp

/-- If the expected literal and the input agree on the first `k` positions and
differ at position `k` (both present), the literal scanner fails with
`UnfinishedLiteralValue`. -/
theorem tokenize_literal_mismatch (lit : List Char) :
    ∀ (chars : List Char) (i k : Nat) (tk : Token),
    (∀ m : Nat, m < k → lit[m]? = chars[i + m]?) →
    (∃ a b, lit[k]? = some a ∧ chars[i + k]? = some b ∧ a ≠ b) →
    tokenize_literal chars i lit tk =
      .error (.tokErr .UnfinishedLiteralValue) := by
  induction lit with
  | nil =>
    intro chars i k tk hpre hmis
    obtain ⟨a, b, ha, hb, hab⟩ := hmis
    simp at ha
  | cons e rest ih =>
    intro chars i k tk hpre hmis
    cases k with
    | zero =>
      obtain ⟨a, b, ha, hb, hab⟩ := hmis
      rw [List.getElem?_cons_zero] at ha
      rw [Nat.add_zero] at hb
      have ha' : e = a := by
        injection ha
      exact tokenize_literal_err_step chars i e rest tk b hb (ha' ▸ hab)
    | succ k =>
      obtain ⟨a, b, ha, hb, hab⟩ := hmis
      have h0 := hpre 0 (Nat.succ_pos k)
      rw [List.getElem?_cons_zero, Nat.add_zero] at h0
      rw [tokenize_literal_ok_step chars i e rest tk h0.symm]
      refine ih chars (i + 1) k tk ?_ ?_
      · intro m hm
        have := hpre (m + 1) (by omega)
        rw [List.getElem?_cons_succ] at this
        rw [show i + (m + 1) = i + 1 + m from by omega] at this
        exact this
      · refine ⟨a, b, ?_, ?_, hab⟩
        · rw [List.getElem?_cons_succ] at ha
          exact ha
        · rw [show i + 1 + k = i + (k + 1) from by omega]
          exact hb

/-- Every character the numeric accumulation loop consumes (every position
from its start up to, excluding, its final cursor) is an ASCII digit, a `.` or
a `-`; in particular a terminating character outside this alphabet is never
consumed by `float_scan`. -/
theorem float_scan_consumed (chars : List Char) :
    ∀ (i : Nat) (hd hn : Bool) (acc : List Char) (k : Nat),
    i ≤ k → k < (float_scan chars i hd hn acc).2 →
    ∃ hk : k < chars.length,
      chars[k].isDigit = true ∨ chars[k] = '.' ∨ chars[k] = '-' := by
  have H : ∀ (n i : Nat) (hd hn : Bool) (acc : List Char) (k : Nat),
      chars.length - i ≤ n → i ≤ k → k < (float_scan chars i hd hn acc).2 →
      ∃ hk : k < chars.length,
        chars[k].isDigit = true ∨ chars[k] = '.' ∨ chars[k] = '-' := by
    intro n
    induction n with
    | zero =>
      intro i hd hn acc k hfuel hik hk2
      rw [float_scan_oob chars i hd hn acc (by omega)] at hk2
      simp at hk2
      omega
    | succ n ih =>
      intro i hd hn acc k hfuel hik hk2
      by_cases hib : i < chars.length
      · by_cases hdig : chars[i].isDigit = true
        · rw [float_scan_digit chars i hd hn acc chars[i]
            (List.getElem?_eq_getElem hib) hdig] at hk2
          rcases Nat.eq_or_lt_of_le hik with rfl | hlt
          · exact ⟨hib, Or.inl hdig⟩
          · exact ih (i + 1) hd hn (acc ++ [chars[i]]) k (by omega) (by omega)
              hk2
        · by_cases hdot : chars[i] = '.' ∧ hd = false
          · obtain ⟨hc, hdf⟩ := hdot
            subst hdf
            rw [float_scan_dot chars i hn acc
              (by rw [List.getElem?_eq_getElem hib, hc])] at hk2
            rcases Nat.eq_or_lt_of_le hik with rfl | hlt
            · exact ⟨hib, Or.inr (Or.inl hc)⟩
            · exact ih (i + 1) true hn (acc ++ ['.']) k (by omega) (by omega)
                hk2
          · by_cases hminus : chars[i] = '-' ∧ hd = false
            · obtain ⟨hc, hdf⟩ := hminus
              subst hdf
              rw [float_scan_minus chars i hn acc
                (by rw [List.getElem?_eq_getElem hib, hc])] at hk2
              rcases Nat.eq_or_lt_of_le hik with rfl | hlt
              · exact ⟨hib, Or.inr (Or.inr hc)⟩
              · exact ih (i + 1) false true (acc ++ ['-']) k (by omega)
                  (by omega) hk2
            · rw [float_scan_stop chars i hd hn acc chars[i]
                (List.getElem?_eq_getElem hib) (by simpa using hdig) hdot
                hminus] at hk2
              simp at hk2
              omega
      · rw [float_scan_oob chars i hd hn acc (by omega)] at hk2
        simp at hk2
        omega
  intro i hd hn acc k hik hk2
  exact H (chars.length - i) i hd hn acc k (le_refl _) hik hk2

/-- The string scanner preserves the raw characters verbatim: a successful
scan that started at cursor `ci` (on the opening quote) and stopped at the
closing quote at `j` returns a String token whose content is the starting
buffer followed by exactly the input characters strictly between the two
positions. -/
theorem tokenize_string_verbatim (chars : List Char) :
    ∀ (ci : Nat) (esc : Bool) (s : List Char) (t : Token) (j : Nat),
    tokenize_string chars ci esc s = .ok (t, j) →
    t = .String (String.mk (s ++ ((chars.take j).drop (ci + 1)))) := by
  have H : ∀ (n ci : Nat) (esc : Bool) (s : List Char) (t : Token) (j : Nat),
      chars.length - ci ≤ n →
      tokenize_string chars ci esc s = .ok (t, j) →
      t = .String (String.mk (s ++ ((chars.take j).drop (ci + 1)))) := by
    intro n
    induction n with
    | zero =>
      intro ci esc s t j hfuel h
      rw [tokenize_string_eof chars ci esc s (by omega)] at h
      exact Except.noConfusion h
    | succ n ih =>
      intro ci esc s t j hfuel h
      by_cases hlen : chars.length ≤ ci + 1
      · rw [tokenize_string_eof chars ci esc s hlen] at h
        exact Except.noConfusion h
      · have hci : ci + 1 < chars.length := by omega
        by_cases hq : chars[ci + 1] = '"' ∧ esc = false
        · obtain ⟨hv, hesc⟩ := hq
          subst hesc
          rw [tokenize_string_close chars ci s
            (by rw [List.getElem?_eq_getElem hci, hv])] at h
          cases h
          have hdrop : ((chars.take (ci + 1)).drop (ci + 1)) = [] :=
            List.drop_eq_nil_of_le (List.length_take_le _ _)
          rw [hdrop, List.append_nil]
        · rw [tokenize_string_push chars ci esc s chars[ci + 1]
            (List.getElem?_eq_getElem hci) hq] at h
          have hj := tokenize_string_le chars (ci + 1) _ _ t j h
          have ht := ih (ci + 1) _ _ t j (by omega) h
          have htake : ci + 1 < (chars.take j).length := by
            rw [List.length_take]
            omega
          have hlist : (s ++ [chars[ci + 1]]) ++
              ((chars.take j).drop (ci + 1 + 1)) =
              s ++ ((chars.take j).drop (ci + 1)) := by
            rw [List.drop_eq_getElem_cons htake, List.getElem_take]
            simp [List.append_assoc]
          rw [ht, hlist]
  intro ci esc s t j h
  exact H (chars.length - ci) ci esc s t j (le_refl _) h

/-- When no unescaped closing quote is found in the rest of the input (in the
sense of `closes_string`, starting from the current escape-flag state), the
string scanner fails with `UnclosedQuotes`. -/
theorem tokenize_string_unclosed (chars : List Char) :
    ∀ (ci : Nat) (esc : Bool) (s : List Char),
    closes_string (chars.drop (ci + 1)) esc = false →
    tokenize_string chars ci esc s = .error (.tokErr .UnclosedQuotes) := by
  have H : ∀ (n ci : Nat) (esc : Bool) (s : List Char),
      chars.length - ci ≤ n →
      closes_string (chars.drop (ci + 1)) esc = false →
      tokenize_string chars ci esc s = .error (.tokErr .UnclosedQuotes) := by
    intro n
    induction n with
    | zero =>
      intro ci esc s hfuel hcl
      exact tokenize_string_eof chars ci esc s (by omega)
    | succ n ih =>
      intro ci esc s hfuel hcl
      by_cases hlen : chars.length ≤ ci + 1
      · exact tokenize_string_eof chars ci esc s hlen
      · have hci : ci + 1 < chars.length := by omega
        rw [List.drop_eq_getElem_cons hci, closes_string] at hcl
        by_cases hq : chars[ci + 1] = '"' ∧ esc = false
        · rw [if_pos hq] at hcl
          exact absurd hcl (by simp)
        · rw [if_neg hq] at hcl
          rw [tokenize_string_push chars ci esc s chars[ci + 1]
            (List.getElem?_eq_getElem hci) hq]
          exact ih (ci + 1) _ _ (by omega) hcl
  intro ci esc s hcl
  exact H (chars.length - ci) ci esc s (le_refl _) hcl

/-- None of the six punctuation characters is ASCII whitespace. -/
theorem is_punct_not_ws (c : Char) (h : is_punct c) :
    is_ascii_whitespace c = false := by
  rcases h with h | h | h | h | h | h <;> rw [h] <;> decide

/-- On a suffix made of punctuation characters only, the dispatch loop
produces exactly one corresponding token per character, in order. -/
theorem tokenize_loop_punct (chars : List Char) :
    ∀ (index : Nat) (tokens : List Token),
    (∀ c ∈ chars.drop index, is_punct c) →
    tokenize_loop chars index tokens =
      .ok (tokens ++ (chars.drop index).map punct_token) := by
  have H : ∀ (n index : Nat) (tokens : List Token),
      chars.length - index ≤ n →
      (∀ c ∈ chars.drop index, is_punct c) →
      tokenize_loop chars index tokens =
        .ok (tokens ++ (chars.drop index).map punct_token) := by
    intro n
    induction n with
    | zero =>
      intro index tokens hfuel hp
      rw [List.drop_eq_nil_of_le (by omega),
        tokenize_loop_done chars index tokens (by omega)]
      simp
    | succ n ih =>
      intro index tokens hfuel hp
      by_cases hlen : chars.length ≤ index
      · rw [List.drop_eq_nil_of_le hlen,
          tokenize_loop_done chars index tokens hlen]
        simp
      · have hlt : index < chars.length := by omega
        have hdrop : chars.drop index = chars[index] :: chars.drop (index + 1) :=
          List.drop_eq_getElem_cons hlt
        have hpc : is_punct chars[index] := by
          apply hp
          rw [hdrop]
          exact List.mem_cons_self _ _
        have hmk : make_token chars index = .ok (punct_token chars[index], index) :=
          make_token_punct chars index index chars[index]
            (skip_whitespace_stop chars index chars[index]
              (List.getElem?_eq_getElem hlt) (is_punct_not_ws _ hpc)) hpc
        rw [tokenize_loop_ok chars index tokens _ index hlt hmk]
        rw [ih (index + 1) (tokens ++ [punct_token chars[index]]) (by omega)
          (fun c hc => hp c (by rw [hdrop]; exact List.mem_cons_of_mem _ hc))]
        rw [hdrop]
        simp only [List.map_cons, List.append_assoc, List.singleton_append]
  intro index tokens hp
  exact H (chars.length - index) index tokens (le_refl _) hp

/-- When the input starts with the literal's first character, the mismatch of
`tokenize_literal` propagates through `make_token` and the dispatch loop to
the `tokenize` result. -/
theorem literal_head_mismatch (s : String) (lit : List Char) (tk : Token)
    (k : Nat)
    (hdisp : make_token s.data 0 = tokenize_literal s.data 0 lit tk)
    (h0 : 0 < s.data.length)
    (hpre : ∀ m : Nat, m < k → lit[m]? = s.data[m]?)
    (hmis : ∃ a b, lit[k]? = some a ∧ s.data[k]? = some b ∧ a ≠ b) :
    tokenize s = .error (.tokErr .UnfinishedLiteralValue) := by
  rw [tokenize]
  refine tokenize_loop_err _ 0 _ _ h0 ?_
  rw [hdisp]
  refine tokenize_literal_mismatch lit s.data 0 k tk ?_ ?_
  · intro m hm
    rw [Nat.zero_add]
    exact hpre m hm
  · obtain ⟨a, b, ha, hb, hab⟩ := hmis
    exact ⟨a, b, ha, by rw [Nat.zero_add]; exact hb, hab⟩

/-- C1 (amended): the numeric scanner never consumes a terminating character —
every position it consumes holds a digit, `.` or `-` — but the dispatch loop
then advances the cursor past the terminating character, so that character
yields no token of its own: tokenize("1,") is exactly [Number 1], with no
Comma token after it. -/
theorem c1_number_terminator :
    (∀ (chars : List Char) (i : Nat) (hd hn : Bool) (acc : List Char)
      (k : Nat), i ≤ k → k < (float_scan chars i hd hn acc).2 →
      ∃ hk : k < chars.length,
        chars[k].isDigit = true ∨ chars[k] = '.' ∨ chars[k] = '-') ∧
    tokenize "1," = .ok [Token.Number 1] :=
  ⟨float_scan_consumed, eval_one_comma⟩

/-- C1 counterexample: tokenizing `1,` does not produce a Comma token after
the Number token — the claim's predicted output is refuted at this input. -/
theorem c1_counterexample :
    tokenize "1," = .ok [Token.Number 1] ∧
    tokenize "1," ≠ .ok [Token.Number 1, Token.Comma] := by
  refine ⟨eval_one_comma, ?_⟩
  rw [eval_one_comma]
  simp

/-- C1 witness: the general part of the theorem instantiated on `1,` at
position 0 (the consumed digit). -/
theorem c1_witness :
    ∃ hk : 0 < ("1," : String).data.length,
      (("1," : String).data[0].isDigit = true ∨
        ("1," : String).data[0] = '.' ∨ ("1," : String).data[0] = '-') :=
  c1_number_terminator.1 ("1," : String).data 0 false false [] 0 (le_refl 0)
    (by rw [eval_scan_one_comma]; decide)

/-- C2 (code bug): when a literal keyword is cut off by the end of input the
scanner does not return a `TokenizeError` — it indexes the slice out of
bounds (a Rust panic), modelled as `indexOutOfBounds`. -/
theorem c2_literal_eof_panics :
    tokenize "tru" = .error .indexOutOfBounds ∧
    tokenize "n" = .error .indexOutOfBounds :=
  ⟨eval_tru, eval_n⟩

/-- C3 (code bug): the numeric scanner consumes a second `-` (the
`has_negative` flag is set but never read), as the final cursor 3 on `1--`
shows; the accumulated text `1--` then fails to parse and tokenize returns
`ParseNumberError` with the `Invalid` float-parse failure. -/
theorem c3_double_minus_consumed :
    float_scan (("1--" : String).data) 0 false false [] = (['1', '-', '-'], 3) ∧
    tokenize "1--" = .error (.tokErr (.ParseNumberError .invalid)) :=
  ⟨eval_scan_one_minus_minus, eval_one_minus_minus⟩

/-- C4 (amended): every nonempty input consisting solely of ASCII whitespace
fails with `UnexpectedEof`. -/
theorem c4_trailing_whitespace :
    ∀ (input : String), input.data ≠ [] →
    (∀ c ∈ input.data, is_ascii_whitespace c = true) →
    tokenize input = .error (.tokErr .UnexpectedEof) := by
  intro input hne hws
  have hlen : 0 < input.data.length := List.length_pos.mpr hne
  rw [tokenize]
  refine tokenize_loop_err _ 0 _ _ hlen ?_
  refine make_token_skip_err _ 0 _ ?_
  refine skip_whitespace_all_ws _ 0 hlen ?_
  intro k hk hge
  exact hws _ (List.getElem_mem hk)

/-- C4 counterexample: `1 ` has its only token followed solely by trailing
whitespace, yet tokenize succeeds — the single space terminating the number
is skipped by the dispatch loop's advance. -/
theorem c4_counterexample :
    tokenize "1 " = .ok [Token.Number 1] ∧
    tokenize "1 " ≠ .error (.tokErr .UnexpectedEof) := by
  refine ⟨eval_one_space, ?_⟩
  rw [eval_one_space]
  simp

/-- C4 witness: the all-whitespace input `" "` fails with `UnexpectedEof`. -/
theorem c4_witness : tokenize " " = .error (.tokErr .UnexpectedEof) :=
  c4_trailing_whitespace " " (by decide) (by decide)

/-- C5: `null`, `true` and `false` each tokenize to exactly one token of the
matching kind; and an input starting with `n`, `t` or `f` whose characters
match the expected keyword up to position k and differ at position k (both
present) fails with `UnfinishedLiteralValue` — no partial-match recovery. -/
theorem c5_literal_keywords :
    tokenize "null" = .ok [Token.Null] ∧
    tokenize "true" = .ok [Token.True] ∧
    tokenize "false" = .ok [Token.False] ∧
    (∀ (s : String) (k : Nat), s.data[0]? = some 'n' →
      (∀ m : Nat, m < k → ("null".data)[m]? = s.data[m]?) →
      (∃ a b, ("null".data)[k]? = some a ∧ s.data[k]? = some b ∧ a ≠ b) →
      tokenize s = .error (.tokErr .UnfinishedLiteralValue)) ∧
    (∀ (s : String) (k : Nat), s.data[0]? = some 't' →
      (∀ m : Nat, m < k → ("true".data)[m]? = s.data[m]?) →
      (∃ a b, ("true".data)[k]? = some a ∧ s.data[k]? = some b ∧ a ≠ b) →
      tokenize s = .error (.tokErr .UnfinishedLiteralValue)) ∧
    (∀ (s : String) (k : Nat), s.data[0]? = some 'f' →
      (∀ m : Nat, m < k → ("false".data)[m]? = s.data[m]?) →
      (∃ a b, ("false".data)[k]? = some a ∧ s.data[k]? = some b ∧ a ≠ b) →
      tokenize s = .error (.tokErr .UnfinishedLiteralValue)) := by
  refine ⟨eval_null, eval_true, eval_false, ?_, ?_, ?_⟩
  · intro s k h0 hpre hmis
    exact literal_head_mismatch s ("null".data) .Null k
      (make_token_n _ 0 0 (skip_whitespace_stop _ 0 'n' h0 (by decide)))
      (List.getElem?_eq_some.mp h0).1 hpre hmis
  · intro s k h0 hpre hmis
    exact literal_head_mismatch s ("true".data) .True k
      (make_token_t _ 0 0 (skip_whitespace_stop _ 0 't' h0 (by decide)))
      (List.getElem?_eq_some.mp h0).1 hpre hmis
  · intro s k h0 hpre hmis
    exact literal_head_mismatch s ("false".data) .False k
      (make_token_f _ 0 0 (skip_whitespace_stop _ 0 'f' h0 (by decide)))
      (List.getElem?_eq_some.mp h0).1 hpre hmis

/-- C5 witness: the mismatch cases instantiated on `nope` (mismatch at
position 1), `tree` (position 2) and `fake` (position 2). -/
theorem c5_witness :
    tokenize "nope" = .error (.tokErr .UnfinishedLiteralValue) ∧
    tokenize "tree" = .error (.tokErr .UnfinishedLiteralValue) ∧
    tokenize "fake" = .error (.tokErr .UnfinishedLiteralValue) :=
  ⟨c5_literal_keywords.2.2.2.1 "nope" 1 (by decide) (by decide)
      ⟨'u', 'o', by decide, by decide, by decide⟩,
    c5_literal_keywords.2.2.2.2.1 "tree" 2 (by decide) (by decide)
      ⟨'u', 'e', by decide, by decide, by decide⟩,
    c5_literal_keywords.2.2.2.2.2 "fake" 2 (by decide) (by decide)
      ⟨'l', 'k', by decide, by decide, by decide⟩⟩

/-- C6: the string scanner preserves the raw characters between the quotes
verbatim (a successful scan returns the starting buffer plus exactly the
input characters strictly between the opening and closing quote); in
particular `"ken"` gives String token `ken` and the raw text `"the \" is OK"`
gives a String token that keeps the backslash-quote sequence. -/
theorem c6_string_verbatim :
    (∀ (chars : List Char) (ci : Nat) (esc : Bool) (s : List Char)
      (t : Token) (j : Nat),
      tokenize_string chars ci esc s = .ok (t, j) →
      t = .String (String.mk (s ++ ((chars.take j).drop (ci + 1))))) ∧
    tokenize "\"ken\"" = .ok [Token.String "ken"] ∧
    tokenize "\"the \\\" is OK\"" = .ok [Token.String "the \\\" is OK"] :=
  ⟨tokenize_string_verbatim, eval_ken, eval_escaped_quote⟩

/-- C6 witness: the verbatim property instantiated on the scan of `"ken"`. -/
theorem c6_witness :
    Token.String "ken" =
      Token.String (String.mk
        ([] ++ (((("\"ken\"" : String).data).take 4).drop (0 + 1)))) := by
  have h : tokenize_string (("\"ken\"" : String).data) 0 false [] =
      .ok (Token.String "ken", 4) := by
    rw [tokenize_string_push_stay _ 0 false [] 'k' rfl (by decide) (by decide),
      tokenize_string_push_stay _ 1 false _ 'e' rfl (by decide) (by decide),
      tokenize_string_push_stay _ 2 false _ 'n' rfl (by decide) (by decide),
      tokenize_string_close _ 3 _ rfl]
    rfl
  exact c6_string_verbatim.1 (("\"ken\"" : String).data) 0 false [] _ 4 h

/-- C7: when no unescaped closing quote follows the opening quote (in the
sense of the escape-toggling automaton `closes_string`), tokenize fails with
`UnclosedQuotes`; in particular on the unterminated `"ken`. -/
theorem c7_unclosed_quotes :
    (∀ (s : String), s.data[0]? = some '"' →
      closes_string (s.data.drop 1) false = false →
      tokenize s = .error (.tokErr .UnclosedQuotes)) ∧
    tokenize "\"ken" = .error (.tokErr .UnclosedQuotes) := by
  refine ⟨?_, eval_ken_unclosed⟩
  intro s h0 hcl
  have hlen : 0 < s.data.length := (List.getElem?_eq_some.mp h0).1
  rw [tokenize]
  refine tokenize_loop_err _ 0 _ _ hlen ?_
  rw [make_token_quote _ 0 0 (skip_whitespace_stop _ 0 '"' h0 (by decide))]
  exact tokenize_string_unclosed s.data 0 false [] (by simpa using hcl)

/-- C7 witness: the general part instantiated on `"ken`. -/
theorem c7_witness : tokenize "\"ken" = .error (.tokErr .UnclosedQuotes) :=
  c7_unclosed_quotes.1 "\"ken" (by decide) (by decide)

/-- C8: an input consisting solely of the six punctuation characters
tokenizes to exactly one corresponding token per input character, in
left-to-right order. -/
theorem c8_punctuation :
    ∀ (input : String), (∀ c ∈ input.data, is_punct c) →
    tokenize input = .ok (input.data.map punct_token) := by
  intro input hp
  rw [tokenize]
  have h := tokenize_loop_punct input.data 0 [] (by simpa using hp)
  simpa using h

/-- C8 witness: the punctuation theorem instantiated on `[]{},:`. -/
theorem c8_witness :
    (∀ c ∈ ("[]{},:" : String).data, is_punct c) ∧
    tokenize "[]{},:" = .ok ((("[]{},:" : String).data).map punct_token) :=
  ⟨by decide, c8_punctuation "[]{},:" (by decide)⟩

/-- C9: tokenize is deterministic — two runs on the same input produce equal
results (the embedding is a pure function of the input; the Rust code keeps
all its state in locals, with no global mutable state). -/
theorem c9_deterministic :
    ∀ (input : String) (r₁ r₂ : Except RunError (List Token)),
    tokenize input = r₁ → tokenize input = r₂ → r₁ = r₂ := by
  intro input r₁ r₂ h1 h2
  rw [← h1, ← h2]

/-- C9 witness: determinism instantiated on the input `1`. -/
theorem c9_witness : tokenize "1" = tokenize "1" :=
  c9_deterministic "1" (tokenize "1") (tokenize "1") rfl rfl

/-- C10: the empty input tokenizes to `Ok` with the empty token sequence —
the dispatch loop's bound check fails immediately, before any whitespace
skipping could raise `UnexpectedEof`. -/
theorem c10_empty_input : tokenize "" = .ok ([] : List Token) := by
  rw [tokenize]
  exact tokenize_loop_done _ _ _ (by decide)

end Tokenize
